import Mathlib

/-!
Verification of the generator framework in src/src/Generator.cpp.

Each definition below is a shallow embedding of the correspondingly named
C++ entity from Generator.cpp.  Failure paths (user_assert / user_error /
internal_assert / internal_error) are embedded as Except errors carrying
structured data; the error tier distinguishes user-facing validation
failures (user_assert / user_error) from internal-contract violations
(internal_assert / internal_error).
-/

set_option autoImplicit false

namespace HalideGen

/-- Error tier: user_assert / user_error produce user-facing validation
errors; internal_assert / internal_error produce internal-contract
violations. -/
inductive ErrTier where
  | userFacing
  | internalContract
  deriving DecidableEq, Repr

/-! ## Identifier validator (Generator.cpp lines 103-120) -/

/-- Embeds is_alpha: ASCII letter test. -/
def is_alpha (c : Char) : Bool :=
  (c ≥ 'A' && c ≤ 'Z') || (c ≥ 'a' && c ≤ 'z')

/-- Embeds is_alnum: letter, underscore or digit (note that this includes
the underscore, as in the source). -/
def is_alnum (c : Char) : Bool :=
  is_alpha c || (c = '_') || (c ≥ '0' && c ≤ '9')

/-- Embeds the loop of is_valid_name over positions 1..n-1: each character
must be alnum, and a character may not be an underscore when the previous
character was an underscore. -/
def valid_tail (prev : Char) : List Char → Bool
  | [] => true
  | c :: cs =>
    if !is_alnum c then false
    else if c = '_' && prev = '_' then false
    else valid_tail c cs

/-- Embeds is_valid_name: nonempty, first character alphabetic, remaining
characters alnum with no two consecutive underscores. -/
def is_valid_name (n : String) : Bool :=
  match n.data with
  | [] => false
  | c :: cs => if !is_alpha c then false else valid_tail c cs

/-! ## ValueTracker (Generator.cpp lines 238-281) -/

/-- A Halide Expr as consumed by ValueTracker, modelled as an optional
concrete scalar constraint value; none embeds an undefined Expr. -/
abbrev Expr := Option Int

/-- Modelled from the spec: the distinct-value threshold max_unique_values
of ValueTracker defaults to 2 (declared in Generator.h, which is outside
src/; the spec states the default threshold is 2). -/
def max_unique_values : Nat := 2

/-- Modelled from the spec: can_prove of an equality between two defined
constraint Exprs (the provable-equality check of the consistency tracker),
embedded as equality of the concrete values. -/
def can_prove_eq (newval oldval : Int) : Bool :=
  decide (newval = oldval)

/-- Embeds the per-position comparison in track_values: two defined values
compare by can_prove of their equality; two undefined values are treated
as equal; a defined and an undefined value are never equal. -/
def values_match (oldval newval : Expr) : Bool :=
  match oldval, newval with
  | some o, some n => can_prove_eq n o
  | none, none => true
  | _, _ => false

/-- Failures of ValueTracker::track_values. The sizeMismatch case embeds
the internal_assert on history.size(); the tooMany case embeds the
user_error raised when a position exceeds max_unique_values, carrying the
position and every value recorded at that position (the data printed in
the failure message). -/
inductive TrackErr where
  | sizeMismatch (expected seen : Nat) (name : String)
  | tooMany (pos : Nat) (maxvals : Nat) (entries : List Expr)
  deriving DecidableEq, Repr

/-- Tier of a track_values failure. -/
def TrackErr.tier : TrackErr → ErrTier
  | .sizeMismatch _ _ _ => .internalContract
  | .tooMany _ _ _ => .userFacing

/-- Embeds history[i].back(): the most recently recorded value at a
position (histories are nonempty whenever this is consulted). -/
def last_value (l : List Expr) : Expr :=
  l.getLastD none

/-- Embeds the position loop of track_values: for each position, compare
the new value against the most recently recorded one; if they match, keep
the history; otherwise append the new value and fail if the position now
holds more than max_unique_values entries. -/
def track_positions (i : Nat) : List (List Expr) → List Expr →
    Except TrackErr (List (List Expr))
  | h :: hs, v :: vs =>
    if values_match (last_value h) v then
      (track_positions (i + 1) hs vs).map (fun rest => h :: rest)
    else
      let h2 := h ++ [v]
      if h2.length > max_unique_values then
        .error (.tooMany i max_unique_values h2)
      else
        (track_positions (i + 1) hs vs).map (fun rest => h2 :: rest)
  | _, _ => .ok []

/-- The values_history map of a ValueTracker: per name, one history list
per tuple position. -/
abbrev ValueTracker := List (String × List (List Expr))

/-- Embeds values_history[name] lookup (absent behaves as empty). -/
def lookup_history (vt : ValueTracker) (name : String) : List (List Expr) :=
  match vt.find? (fun p => p.1 == name) with
  | some p => p.2
  | none => []

/-- Stores a history under a name, replacing any previous entry. -/
def set_history (vt : ValueTracker) (name : String) (h : List (List Expr)) :
    ValueTracker :=
  match vt with
  | [] => [(name, h)]
  | p :: rest =>
    if p.1 == name then (name, h) :: rest else p :: set_history rest name h

/-- Embeds ValueTracker::track_values: on first call for a name, store the
tuple as the sole entry per position; on later calls, the tuple length
must equal the stored length (internal_assert), then run the position
loop. -/
def track_values (vt : ValueTracker) (name : String) (values : List Expr) :
    Except TrackErr ValueTracker :=
  let history := lookup_history vt name
  if history.isEmpty then
    .ok (set_history vt name (values.map (fun v => [v])))
  else if history.length = values.length then
    (track_positions 0 history values).map (fun h => set_history vt name h)
  else
    .error (.sizeMismatch history.length values.length name)

/-! ## Phase state machine (Generator.cpp lines 1786-1811) -/

/-- The four lifecycle phases of a generator instance. -/
inductive Phase where
  | Created
  | InputsSet
  | GenerateCalled
  | ScheduleCalled
  deriving DecidableEq, Repr

/-- Numeric order of the phases, as given by the C++ enum declaration
order (used by the < and >= comparisons on phases). -/
def Phase.idx : Phase → Nat
  | .Created => 0
  | .InputsSet => 1
  | .GenerateCalled => 2
  | .ScheduleCalled => 3

/-- Failures of advance_phase; both cases embed internal_error or an
internal_assert in the source. -/
inductive PhaseErr where
  | impossible
  | badTransition (current target : Phase)
  deriving DecidableEq, Repr

/-- Embeds GeneratorBase::advance_phase: advancing to Created is
impossible; InputsSet requires the current phase Created; GenerateCalled
requires Created or InputsSet (skipping InputsSet is permitted);
ScheduleCalled requires GenerateCalled. -/
def advance_phase (phase : Phase) (new_phase : Phase) :
    Except PhaseErr Phase :=
  match new_phase with
  | .Created => .error .impossible
  | .InputsSet =>
    if phase = .Created then .ok .InputsSet
    else .error (.badTransition phase .InputsSet)
  | .GenerateCalled =>
    if phase = .Created ∨ phase = .InputsSet then .ok .GenerateCalled
    else .error (.badTransition phase .GenerateCalled)
  | .ScheduleCalled =>
    if phase = .GenerateCalled then .ok .ScheduleCalled
    else .error (.badTransition phase .ScheduleCalled)

/-! ## Phase-gated value access (Generator.cpp lines 1495-1507, 2188-2190,
2307-2309) -/

/-- Embeds GeneratorParamBase::check_value_readable: target,
auto_schedule and machine_params are always readable; any other param
requires an owning generator whose phase is at least GenerateCalled.
The generator is embedded as an optional phase (none embeds a null
generator back-pointer). -/
def GeneratorParamBase.check_value_readable (name : String)
    (gen : Option Phase) : Bool :=
  if name = "target" then true
  else if name = "auto_schedule" then true
  else if name = "machine_params" then true
  else
    match gen with
    | some phase => decide (Phase.idx .GenerateCalled ≤ phase.idx)
    | none => false

/-- Embeds GeneratorParamBase::check_value_writable: writable with no
owning generator (ctor initialization), otherwise only strictly before
GenerateCalled. -/
def GeneratorParamBase.check_value_writable (gen : Option Phase) : Bool :=
  match gen with
  | none => true
  | some phase => decide (phase.idx < Phase.idx .GenerateCalled)

/-- Embeds GeneratorOutputBase::check_value_writable: requires an owning
generator whose phase is exactly GenerateCalled. -/
def GeneratorOutputBase.check_value_writable (gen : Option Phase) : Bool :=
  match gen with
  | none => false
  | some phase => decide (phase = Phase.GenerateCalled)

/-! ## Field entity model: GIOBase (Generator.cpp lines 2005-2168) -/

/-- A Halide scalar element type, carried by its code, bit width and lane
count. -/
structure HType where
  code : Nat
  bits : Nat
  lanes : Nat
  deriving DecidableEq, Repr

/-- A bound Func value as observed by GIOBase: definedness, output
element types, and dimensionality. -/
structure FuncVal where
  is_defined : Bool
  output_types : List HType
  dimensions : Nat
  deriving DecidableEq, Repr

/-- The three field-entity kinds. -/
inductive IOKind where
  | Scalar
  | Function
  | Buffer
  deriving DecidableEq, Repr

/-- The mutable state of a GIOBase field entity: the underscore-suffixed
members of the C++ class.  array_size_ and dims_ use the -1 sentinel for
unset, exactly as in the source; types_ is unset when empty. -/
structure GIOBase where
  array_size_ : Int
  name_ : String
  kind_ : IOKind
  types_ : List HType
  dims_ : Int
  funcs_ : List FuncVal
  exprs_ : List Expr
  deriving DecidableEq, Repr

/-- Embeds GIOBase::array_size_defined. -/
def GIOBase.array_size_defined (s : GIOBase) : Bool :=
  s.array_size_ != -1

/-- Embeds GIOBase::types_defined. -/
def GIOBase.types_defined (s : GIOBase) : Bool :=
  !s.types_.isEmpty

/-- Embeds GIOBase::dims_defined. -/
def GIOBase.dims_defined (s : GIOBase) : Bool :=
  s.dims_ != -1

/-- Failures of the GIOBase accessors and matching checks.  The
unspecified and mismatch cases embed user_assert failures whose messages
carry the field name and, for mismatches, both the expected (fixed) and
the observed value; funcsAssert embeds the internal_assert inside
GIOBase::funcs. -/
inductive GIOErr where
  | arraySizeUnspecified (name : String)
  | typesUnspecified (name : String)
  | dimsUnspecified (name : String)
  | typeCountMismatch (name : String) (expected seen : Nat)
  | typeMismatch (name : String) (expected seen : HType)
  | dimsMismatch (name : String) (expected seen : Int)
  | funcsAssert (name : String)
  deriving DecidableEq, Repr

/-- Tier of a GIOBase failure. -/
def GIOErr.tier : GIOErr → ErrTier
  | .funcsAssert _ => .internalContract
  | _ => .userFacing

/-- Embeds the element-wise loop in GIOBase::check_matching_types: report
the first position whose fixed type differs from the observed type,
naming both. -/
def find_type_mismatch (name : String) :
    List HType → List HType → Option GIOErr
  | e :: es, s :: ss =>
    if e = s then find_type_mismatch name es ss
    else some (.typeMismatch name e s)
  | _, _ => none

/-- Embeds GIOBase::check_matching_types: if the types are already
defined, the observed list must have the same length and match
element-wise (failing with a mismatch naming expected and seen);
otherwise adopt the observed list. -/
def GIOBase.check_matching_types (s : GIOBase) (t : List HType) :
    Except GIOErr GIOBase :=
  if s.types_defined then
    if s.types_.length ≠ t.length then
      .error (.typeCountMismatch s.name_ s.types_.length t.length)
    else
      match find_type_mismatch s.name_ s.types_ t with
      | some e => .error e
      | none => .ok s
  else
    .ok { s with types_ := t }

/-- Embeds GIOBase::check_matching_dims: if the dimensionality is already
defined, the observed value must equal it (failing with a mismatch naming
expected and seen); otherwise adopt it.  The observed value is a Nat,
embedding the internal_assert that it is nonnegative. -/
def GIOBase.check_matching_dims (s : GIOBase) (d : Nat) :
    Except GIOErr GIOBase :=
  if s.dims_defined then
    if s.dims_ = (d : Int) then .ok s
    else .error (.dimsMismatch s.name_ s.dims_ (d : Int))
  else
    .ok { s with dims_ := (d : Int) }

/-- Embeds GIOBase::array_size: user_assert that the array size was
resolved, then return it. -/
def GIOBase.array_size (s : GIOBase) : Except GIOErr Nat :=
  if s.array_size_defined then .ok s.array_size_.toNat
  else .error (.arraySizeUnspecified s.name_)

/-- Embeds GIOBase::funcs: internal_assert that funcs_ has exactly
array_size() entries and exprs_ is empty, then return funcs_. -/
def GIOBase.funcs (s : GIOBase) : Except GIOErr (List FuncVal) :=
  match s.array_size with
  | .error e => .error e
  | .ok n =>
    if s.funcs_.length = n ∧ s.exprs_.isEmpty then .ok s.funcs_
    else .error (.funcsAssert s.name_)

/-- Embeds GIOBase::types: if the types are not yet defined but exactly
one bound Func exists and is defined, adopt its output types via
check_matching_types; then user_assert that the types are defined and
return them (together with the possibly updated entity state). -/
def GIOBase.types (s : GIOBase) : Except GIOErr (GIOBase × List HType) :=
  let step : Except GIOErr GIOBase :=
    if !s.types_defined then
      match s.funcs_ with
      | [f] =>
        if f.is_defined then s.check_matching_types f.output_types
        else .ok s
      | _ => .ok s
    else .ok s
  match step with
  | .error e => .error e
  | .ok s2 =>
    if s2.types_defined then .ok (s2, s2.types_)
    else .error (.typesUnspecified s2.name_)

/-- Embeds GIOBase::dims: if the dimensionality is not yet defined but
exactly one bound Func exists and is defined, adopt its dimensionality
(read through the funcs() accessor, as in the source) via
check_matching_dims; then user_assert that the dimensionality is defined
and return it. -/
def GIOBase.dims (s : GIOBase) : Except GIOErr (GIOBase × Int) :=
  let step : Except GIOErr GIOBase :=
    if !s.dims_defined then
      match s.funcs_ with
      | [f] =>
        if f.is_defined then
          match s.funcs with
          | .error e => .error e
          | .ok fs => s.check_matching_dims ((fs.headD f).dimensions)
        else .ok s
      | _ => .ok s
    else .ok s
  match step with
  | .error e => .error e
  | .ok s2 =>
    if s2.dims_defined then .ok (s2, s2.dims_)
    else .error (.dimsUnspecified s2.name_)

/-! ## Schema builder: GeneratorBase::ParamInfo (Generator.cpp lines
1579-1667) -/

/-- A legacy-style Param<> / ImageParam discovered by the schema builder:
its name and whether the name was given explicitly. -/
structure FilterParamDecl where
  name : String
  explicit_name : Bool
  deriving DecidableEq, Repr

/-- A modern-style Input<> or Output<> discovered by the schema builder:
name, kind, and whether it is array-valued. -/
structure GIODecl where
  name : String
  kind : IOKind
  is_array : Bool
  deriving DecidableEq, Repr

/-- A GeneratorParam<> discovered by the schema builder. -/
structure ParamDecl where
  name : String
  deriving DecidableEq, Repr

/-- The built schema: ordered legacy params, inputs, outputs, and the
names of the generator params (synthetic params first, in discovery
order, then the declared GeneratorParams). -/
structure ParamInfo where
  filter_params : List String
  filter_inputs : List GIODecl
  filter_outputs : List GIODecl
  generator_params : List String
  deriving DecidableEq, Repr

/-- Failures of ParamInfo construction.  Every case embeds a user_assert
or user_error from the constructor (the internal_assert null checks have
no counterpart in the embedding, where the discovered objects are values
rather than pointers). -/
inductive SchemaErr where
  | paramNotExplicit (n : String)
  | invalidParamName (n : String)
  | duplicateParamName (n : String)
  | invalidInputName (n : String)
  | duplicateInputName (n : String)
  | invalidOutputName (n : String)
  | duplicateOutputName (n : String)
  | inputWithFilterParams
  | outputWithFilterParams
  | invalidGeneratorParamName (n : String)
  | duplicateGeneratorParamName (n : String)
  deriving DecidableEq, Repr

/-- Tier of a schema-builder failure: every ParamInfo validation failure
is raised via user_assert or user_error in the source. -/
def SchemaErr.tier : SchemaErr → ErrTier := fun _ => .userFacing

/-- Embeds add_synthetic_params: a .type and .dim param for every
non-scalar field entity, plus a .size param for every array-valued one. -/
def synthetic_names (g : GIODecl) : List String :=
  (if g.kind ≠ IOKind.Scalar then [g.name ++ ".type", g.name ++ ".dim"]
   else [])
  ++ (if g.is_array then [g.name ++ ".size"] else [])

/-- Embeds the filter_params discovery loop: explicit name required, name
valid, name fresh; returns the updated name set and the param names in
discovery order. -/
def process_filter_params (names : List String) :
    List FilterParamDecl → Except SchemaErr (List String × List String)
  | [] => .ok (names, [])
  | p :: ps =>
    if !p.explicit_name then .error (.paramNotExplicit p.name)
    else if !is_valid_name p.name then .error (.invalidParamName p.name)
    else if names.contains p.name then .error (.duplicateParamName p.name)
    else
      (process_filter_params (p.name :: names) ps).map
        (fun r => (r.1, p.name :: r.2))

/-- Embeds the input/output discovery loops (parameterized by the error
constructors of the respective direction): name valid, name fresh;
returns the updated name set, the entities in discovery order, and the
synthetic param names they contribute. -/
def process_gios (mkInvalid mkDup : String → SchemaErr)
    (names : List String) :
    List GIODecl →
    Except SchemaErr (List String × List GIODecl × List String)
  | [] => .ok (names, [], [])
  | g :: gs =>
    if !is_valid_name g.name then .error (mkInvalid g.name)
    else if names.contains g.name then .error (mkDup g.name)
    else
      (process_gios mkInvalid mkDup (g.name :: names) gs).map
        (fun r => (r.1, g :: r.2.1, synthetic_names g ++ r.2.2))

/-- Embeds the GeneratorParam discovery loop: name valid, name fresh;
returns the updated name set and the param names in discovery order. -/
def process_generator_params (names : List String) :
    List ParamDecl → Except SchemaErr (List String × List String)
  | [] => .ok (names, [])
  | p :: ps =>
    if !is_valid_name p.name then
      .error (.invalidGeneratorParamName p.name)
    else if names.contains p.name then
      .error (.duplicateGeneratorParamName p.name)
    else
      (process_generator_params (p.name :: names) ps).map
        (fun r => (r.1, p.name :: r.2))

/-- Embeds the ParamInfo constructor: process legacy params, inputs and
outputs (collecting synthetic params), then reject any coexistence of
legacy params with inputs or with outputs (user_error), then process the
declared GeneratorParams. -/
def build_param_info (fps : List FilterParamDecl) (ins outs : List GIODecl)
    (gps : List ParamDecl) : Except SchemaErr ParamInfo := do
  let (names1, filter_params) ← process_filter_params [] fps
  let (names2, filter_inputs, syn_in) ←
    process_gios .invalidInputName .duplicateInputName names1 ins
  let (names3, filter_outputs, syn_out) ←
    process_gios .invalidOutputName .duplicateOutputName names2 outs
  if filter_params.length > 0 ∧ filter_inputs.length > 0 then
    .error .inputWithFilterParams
  else if filter_params.length > 0 ∧ filter_outputs.length > 0 then
    .error .outputWithFilterParams
  else do
    let (_names4, gp_names) ← process_generator_params names3 gps
    .ok { filter_params := filter_params,
          filter_inputs := filter_inputs,
          filter_outputs := filter_outputs,
          generator_params := syn_in ++ syn_out ++ gp_names }

/-! ## Generator registry (Generator.cpp lines 1513-1568) -/

/-- The context handed to a generator factory. -/
structure GContext where
  target : Nat
  deriving DecidableEq, Repr

/-- A generator factory: from a context to an instance pointer (none
embeds a returned null pointer). -/
abbrev GeneratorFactory := GContext → Option Nat

/-- The name-to-factory table of the registry (kept in key order, as a
std::map iterates in sorted key order). -/
abbrev RegistryMap := List (String × GeneratorFactory)

/-- Embeds registry.factories.find(name). -/
def registry_lookup (reg : RegistryMap) (name : String) :
    Option GeneratorFactory :=
  match reg.find? (fun p => p.1 == name) with
  | some p => some p.2
  | none => none

/-- The registered names, in table iteration order. -/
def registry_names (reg : RegistryMap) : List String :=
  reg.map (fun p => p.1)

/-- Embeds registry.factories[name] = factory: sorted-position insertion
into the map. -/
def registry_insert (reg : RegistryMap) (name : String)
    (f : GeneratorFactory) : RegistryMap :=
  match reg with
  | [] => [(name, f)]
  | (k, g) :: rest =>
    if name < k then (name, f) :: (k, g) :: rest
    else (k, g) :: registry_insert rest name f

/-- Failures of GeneratorRegistry::register_factory: the invalid-name
case embeds a user_assert, the duplicate-name case embeds an
internal_assert. -/
inductive RegisterErr where
  | invalidName (n : String)
  | duplicateName (n : String)
  deriving DecidableEq, Repr

/-- Tier of a register_factory failure, as raised in the source:
user_assert for the invalid name, internal_assert for the duplicate. -/
def RegisterErr.tier : RegisterErr → ErrTier
  | .invalidName _ => .userFacing
  | .duplicateName _ => .internalContract

/-- Embeds GeneratorRegistry::register_factory: user_assert the name is
valid, internal_assert the name is not yet registered, then insert. -/
def register_factory (reg : RegistryMap) (name : String)
    (f : GeneratorFactory) : Except RegisterErr RegistryMap :=
  if !is_valid_name name then .error (.invalidName name)
  else if (registry_lookup reg name).isSome then
    .error (.duplicateName name)
  else .ok (registry_insert reg name f)

/-- Failures of GeneratorRegistry::create: notFound embeds the user_error
whose message lists every known name; nullFactoryResult embeds the
internal_assert that the factory result is non-null. -/
inductive CreateErr where
  | notFound (name : String) (known : List String)
  | nullFactoryResult
  deriving DecidableEq, Repr

/-- Tier of a create failure. -/
def CreateErr.tier : CreateErr → ErrTier
  | .notFound _ _ => .userFacing
  | .nullFactoryResult => .internalContract

/-- Embeds GeneratorRegistry::create: absent name fails listing every
registered name; otherwise the factory is invoked and its non-null result
returned (a null result trips an internal_assert). -/
def GeneratorRegistry.create (reg : RegistryMap) (name : String)
    (ctx : GContext) : Except CreateErr Nat :=
  match registry_lookup reg name with
  | none => .error (.notFound name (registry_names reg))
  | some f =>
    match f ctx with
    | none => .error .nullFactoryResult
    | some g => .ok g

/-! ## Schema emitters (Generator.cpp lines 904-915, 1950-1984) -/

/-- Generator instance state relevant to emission: current phase, the
registered and stub names, and the built schema. -/
structure GenState where
  phase : Phase
  generator_registered_name : String
  generator_stub_name : String
  param_info : ParamInfo
  deriving DecidableEq, Repr

/-- Failures of emit_cpp_stub / emit_yaml: a missing name (user_assert),
an advance_phase failure (internal_assert), or the EmitterBase
constructor internal_assert that at least two namespace components
remain after a leading empty one is erased. -/
inductive EmitErr where
  | noName
  | phase (e : PhaseErr)
  | namespaceAssert
  deriving DecidableEq, Repr

/-- Embeds split_string(generator_stub_name, "::") on the character
level: the pieces of the name between double-colon separators. -/
def split_on_colons (acc : List Char) : List Char → List (List Char)
  | ':' :: ':' :: rest => acc.reverse :: split_on_colons [] rest
  | c :: rest => split_on_colons (c :: acc) rest
  | [] => [acc.reverse]

/-- The stub name split on double colons, as a list of strings. -/
def emitter_split (s : String) : List String :=
  (split_on_colons [] s.data).map String.mk

/-- Embeds the namespace decomposition in the EmitterBase constructor:
split the stub name on double colons (the split is always nonempty, so
the first internal_assert holds by construction); when the first
component is empty it is erased and the internal_assert that at least
two components remain must hold, otherwise the constructor aborts. -/
def emitter_namespaces (stub_name : String) :
    Except EmitErr (List String) :=
  let nss := emitter_split stub_name
  if nss.head? = some "" then
    let nss2 := nss.tail
    if 2 ≤ nss2.length then .ok nss2 else .error .namespaceAssert
  else .ok nss

/-- The text of the C++ stub as a pure function of the emitter inputs
(the registered name, the validated namespace decomposition of the stub
name, and the schema).  The zero-output placeholder branch follows
StubEmitter::emit verbatim; the full-stub branch renders the
include-guard token (built from the namespaces and class name exactly as
in the source) followed by the schema content, abbreviating the fixed
surrounding boilerplate. -/
def stub_text (registered : String) (nss : List String)
    (pi : ParamInfo) : String :=
  if pi.filter_outputs.isEmpty then
    "/* MACHINE-GENERATED - DO NOT EDIT */\n/* The Generator named "
      ++ registered
      ++ " uses ImageParam or Param, thus cannot have a Stub generated. */\n"
  else
    let class_name := nss.getLastD ""
    let nss2 := nss.dropLast
    let guard := "HALIDE_STUB"
      ++ String.join (nss2.map (fun n => "_" ++ n)) ++ "_" ++ class_name
    guard ++ "\n" ++ registered ++ "\n" ++ class_name ++ "\n"
      ++ String.intercalate "," pi.generator_params ++ "\n"
      ++ String.intercalate "," (pi.filter_inputs.map (fun i => i.name))
      ++ "\n"
      ++ String.intercalate "," (pi.filter_outputs.map (fun o => o.name))

/-- The text of the YAML metadata document as a pure function of the
emitter inputs: name, stub name, class name, validated namespaces,
params, inputs and outputs in schema order (document boilerplate
abbreviated). -/
def yaml_text (registered stub_name : String) (nss : List String)
    (pi : ParamInfo) : String :=
  let class_name := nss.getLastD ""
  let nss2 := nss.dropLast
  registered ++ "\n" ++ stub_name ++ "\n" ++ class_name ++ "\n"
    ++ String.intercalate "," nss2 ++ "\n"
    ++ String.intercalate "," pi.generator_params ++ "\n"
    ++ String.intercalate "," (pi.filter_inputs.map (fun i => i.name))
    ++ "\n"
    ++ String.intercalate "," (pi.filter_outputs.map (fun o => o.name))

/-- Embeds GeneratorBase::emit_cpp_stub: user_assert both names are
nonempty, advance the phase to GenerateCalled and then to ScheduleCalled
(each advance may trip its internal_assert), construct the emitter
(whose namespace decomposition may trip its internal_assert), then write
the stub text. -/
def emit_cpp_stub (g : GenState) : Except EmitErr (GenState × String) :=
  if g.generator_registered_name.isEmpty ||
      g.generator_stub_name.isEmpty then
    .error .noName
  else
    match advance_phase g.phase .GenerateCalled with
    | .error e => .error (.phase e)
    | .ok p1 =>
      match advance_phase p1 .ScheduleCalled with
      | .error e => .error (.phase e)
      | .ok p2 =>
        match emitter_namespaces g.generator_stub_name with
        | .error e => .error e
        | .ok nss =>
          .ok ({ g with phase := p2 },
               stub_text g.generator_registered_name nss g.param_info)

/-- Embeds GeneratorBase::emit_yaml: user_assert both names are nonempty,
advance the phase to GenerateCalled and then to ScheduleCalled (each
advance may trip its internal_assert), construct the emitter (whose
namespace decomposition may trip its internal_assert), then write the
YAML text. -/
def emit_yaml (g : GenState) : Except EmitErr (GenState × String) :=
  if g.generator_registered_name.isEmpty ||
      g.generator_stub_name.isEmpty then
    .error .noName
  else
    match advance_phase g.phase .GenerateCalled with
    | .error e => .error (.phase e)
    | .ok p1 =>
      match advance_phase p1 .ScheduleCalled with
      | .error e => .error (.phase e)
      | .ok p2 =>
        match emitter_namespaces g.generator_stub_name with
        | .error e => .error e
        | .ok nss =>
          .ok ({ g with phase := p2 },
               yaml_text g.generator_registered_name
                 g.generator_stub_name nss g.param_info)

/-! ## Helper lemmas -/

theorem double_underscore_cons (a b : Char) (l : List Char) :
    (['_', '_'] <:+: (a :: b :: l)) ↔
      (a = '_' ∧ b = '_') ∨ (['_', '_'] <:+: (b :: l)) := by
  rw [List.infix_cons_iff, List.cons_prefix_cons, List.cons_prefix_cons]
  simp [eq_comm, and_assoc]

theorem double_underscore_singleton (a : Char) :
    ¬ (['_', '_'] <:+: [a]) := by
  intro h
  have := h.length_le
  simp at this

theorem valid_tail_iff (cs : List Char) : ∀ prev : Char,
    valid_tail prev cs = true ↔
      ((∀ x ∈ cs, is_alnum x = true) ∧
        ¬ (['_', '_'] <:+: (prev :: cs))) := by
  induction cs with
  | nil =>
    intro prev
    simp [valid_tail, double_underscore_singleton]
  | cons x rest ih =>
    intro prev
    rw [double_underscore_cons]
    simp only [valid_tail]
    by_cases hx : is_alnum x = true
    · by_cases hu : x = '_' ∧ prev = '_'
      · obtain ⟨rfl, rfl⟩ := hu
        simp [List.forall_mem_cons]
      · have hcond : (decide (x = '_') && decide (prev = '_')) = false := by
          rcases not_and_or.mp hu with h | h <;> simp [h]
        simp only [hx, Bool.not_true, Bool.false_eq_true, if_false, hcond,
          ih x]
        simp only [List.forall_mem_cons, hx, true_and, not_or]
        constructor
        · rintro ⟨h1, h2⟩
          exact ⟨h1, fun h3 => hu ⟨h3.2, h3.1⟩, h2⟩
        · rintro ⟨h1, _h2, h3⟩
          exact ⟨h1, h3⟩
    · have hx2 : is_alnum x = false := by simpa using hx
      simp [hx2, List.forall_mem_cons]

/-! ## C9: identifier validator -/

/-- C9: the identifier validator accepts "gp0" and "a1" and rejects "",
"_x", "a__b" and "1a"; in general it accepts exactly the strings that
start with an ASCII letter, whose remaining characters are letters,
digits or underscores, and that never contain two consecutive
underscores. -/
theorem is_valid_name_spec :
    (is_valid_name "gp0" = true ∧ is_valid_name "a1" = true ∧
     is_valid_name "" = false ∧ is_valid_name "_x" = false ∧
     is_valid_name "a__b" = false ∧ is_valid_name "1a" = false) ∧
    (∀ n : String,
      is_valid_name n = true ↔
        ∃ c cs, n.data = c :: cs ∧ is_alpha c = true ∧
          (∀ x ∈ cs, is_alnum x = true) ∧
          ¬ (['_', '_'] <:+: (c :: cs))) := by
  constructor
  · exact ⟨rfl, rfl, rfl, rfl, rfl, rfl⟩
  · intro n
    unfold is_valid_name
    cases hd : n.data with
    | nil => simp
    | cons c cs =>
      by_cases hc : is_alpha c = true
      · simp only [hc, Bool.not_true, Bool.false_eq_true, if_false,
          valid_tail_iff]
        constructor
        · rintro ⟨h1, h2⟩
          exact ⟨c, cs, rfl, hc, h1, h2⟩
        · rintro ⟨c2, cs2, he, h3, h4, h5⟩
          rw [List.cons.injEq] at he
          obtain ⟨rfl, rfl⟩ := he
          exact ⟨h4, h5⟩
      · have hc2 : is_alpha c = false := by simpa using hc
        simp only [hc2, Bool.not_false, if_true, Bool.false_eq_true,
          false_iff, not_exists]
        rintro c2 cs2 ⟨he, h3, _h4, _h5⟩
        rw [List.cons.injEq] at he
        obtain ⟨rfl, rfl⟩ := he
        exact absurd h3 (by simp [hc2])

/-! ## C2: phase monotonicity -/

/-- C2: the phase advances only forward through the declared sequence:
Created to GenerateCalled directly succeeds, InputsSet to ScheduleCalled
directly fails, and every successful advance moves to the requested,
strictly later phase. -/
theorem advance_phase_monotonic :
    (advance_phase .Created .GenerateCalled = .ok .GenerateCalled) ∧
    (advance_phase .InputsSet .ScheduleCalled =
      .error (.badTransition .InputsSet .ScheduleCalled)) ∧
    (∀ p q r : Phase, advance_phase p q = .ok r →
      r = q ∧ p.idx < q.idx) := by
  refine ⟨rfl, rfl, ?_⟩
  intro p q r h
  cases p <;> cases q <;>
    simp [advance_phase, Phase.idx] at h ⊢ <;> simp [← h]

/-- Closed instance of advance_phase_monotonic at a concrete
transition. -/
theorem advance_phase_monotonic_witness :
    Phase.InputsSet = Phase.InputsSet ∧
      Phase.idx .Created < Phase.idx .InputsSet :=
  advance_phase_monotonic.2.2 .Created .InputsSet .InputsSet rfl

/-! ## C7: phase-gated reads and writes -/

/-- C7: an output value is writable exactly in phase GenerateCalled; a
generator param value is writable exactly strictly before
GenerateCalled; a generator param value is readable before
GenerateCalled only for the always-readable context params target,
auto_schedule and machine_params. -/
theorem phase_gated_value_access :
    (∀ phase : Phase,
      GeneratorOutputBase.check_value_writable (some phase) = true ↔
        phase = .GenerateCalled) ∧
    (∀ phase : Phase,
      GeneratorParamBase.check_value_writable (some phase) = true ↔
        phase.idx < Phase.idx .GenerateCalled) ∧
    (∀ (name : String) (phase : Phase),
      name ≠ "target" → name ≠ "auto_schedule" →
      name ≠ "machine_params" →
      (GeneratorParamBase.check_value_readable name (some phase) = true ↔
        Phase.idx .GenerateCalled ≤ phase.idx)) ∧
    (∀ gen : Option Phase,
      GeneratorParamBase.check_value_readable "target" gen = true ∧
      GeneratorParamBase.check_value_readable "auto_schedule" gen = true ∧
      GeneratorParamBase.check_value_readable "machine_params" gen
        = true) := by
  refine ⟨?_, ?_, ?_, ?_⟩
  · intro phase
    simp [GeneratorOutputBase.check_value_writable]
  · intro phase
    simp [GeneratorParamBase.check_value_writable]
  · intro name phase h1 h2 h3
    simp [GeneratorParamBase.check_value_readable, h1, h2, h3]
  · intro gen
    refine ⟨?_, ?_, ?_⟩ <;> simp [GeneratorParamBase.check_value_readable]

/-- Closed instance of phase_gated_value_access: a non-context param is
not readable in phase Created. -/
theorem phase_gated_value_access_witness :
    ¬ (GeneratorParamBase.check_value_readable "gp0"
        (some Phase.Created) = true) := by
  have h := phase_gated_value_access.2.2.1 "gp0" .Created
    (by decide) (by decide) (by decide)
  intro hc
  exact absurd (h.mp hc) (by decide)

/-! ## ValueTracker lemmas -/

theorem except_map_ok {ε α β : Type} (f : α → β) (x : α) :
    Except.map f (Except.ok x : Except ε α) = .ok (f x) := rfl

theorem except_map_error {ε α β : Type} (f : α → β) (e : ε) :
    Except.map f (Except.error e : Except ε α) =
      (.error e : Except ε β) := rfl

theorem lookup_set_history (vt : ValueTracker) (name : String)
    (h : List (List Expr)) :
    lookup_history (set_history vt name h) name = h := by
  induction vt with
  | nil => simp [set_history, lookup_history]
  | cons p rest ih =>
    by_cases hp : (p.1 == name) = true
    · simp [set_history, hp, lookup_history]
    · have hp2 : (p.1 == name) = false := by simpa using hp
      simp only [set_history, hp2, Bool.false_eq_true, if_false]
      simpa [lookup_history, List.find?, hp2] using ih

theorem track_positions_matched :
    ∀ (hs : List (List Expr)) (i : Nat) (vs : List Expr),
      List.Forall₂
        (fun h v => values_match (last_value h) v = true) hs vs →
      track_positions i hs vs = .ok hs := by
  intro hs
  induction hs with
  | nil =>
    intro i vs hf
    cases hf
    rfl
  | cons h rest ih =>
    intro i vs hf
    cases hf with
    | cons hv hrest =>
      simp [track_positions, hv, ih _ _ hrest, except_map_ok]

theorem track_positions_overflow :
    ∀ (pre : List (List Expr)) (vpre : List Expr) (i : Nat)
      (h0 : List Expr) (v0 : Expr) (hs : List (List Expr))
      (vs : List Expr),
      List.Forall₂
        (fun h v => values_match (last_value h) v = true) pre vpre →
      values_match (last_value h0) v0 = false →
      h0.length = max_unique_values →
      track_positions i (pre ++ h0 :: hs) (vpre ++ v0 :: vs) =
        .error (.tooMany (i + pre.length) max_unique_values
          (h0 ++ [v0])) := by
  intro pre
  induction pre with
  | nil =>
    intro vpre i h0 v0 hs vs hf hm hlen
    cases hf
    have hgt : max_unique_values < h0.length + 1 := by omega
    simp [track_positions, hm, hgt]
  | cons p pre2 ih =>
    intro vpre i h0 v0 hs vs hf hm hlen
    cases hf with
    | cons hv hrest =>
      rename_i w vpre2
      rw [List.cons_append, List.cons_append]
      simp only [track_positions, hv, if_true]
      rw [ih vpre2 (i + 1) h0 v0 hs vs hrest hm hlen]
      have harith : i + 1 + pre2.length = i + (p :: pre2).length := by
        simp only [List.length_cons]
        omega
      rw [harith]
      rfl

/-! ## C1: consistency tracker behaviour -/

/-- C1: calling track_values twice in a row with positionwise provably
equal tuples leaves exactly one history entry per position; and a call
whose value at some position differs from the last recorded one when
that position already holds max_unique_values (2) distinct values fails,
with the failure data listing every distinct value recorded at that
position (the two old values and the new one). -/
theorem track_values_consistency :
    (∀ (vt : ValueTracker) (name : String) (values values2 : List Expr),
      lookup_history vt name = [] →
      values ≠ [] →
      List.Forall₂ (fun v w => values_match v w = true) values values2 →
      track_values vt name values =
        .ok (set_history vt name (values.map (fun v => [v]))) ∧
      track_values (set_history vt name (values.map (fun v => [v])))
          name values2 =
        .ok (set_history (set_history vt name (values.map (fun v => [v])))
          name (values.map (fun v => [v]))) ∧
      ∀ l ∈ lookup_history
          (set_history (set_history vt name (values.map (fun v => [v])))
            name (values.map (fun v => [v]))) name,
        l.length = 1) ∧
    (∀ (vt : ValueTracker) (name : String) (pre hs : List (List Expr))
      (vpre vs : List Expr) (h0 : List Expr) (v0 : Expr),
      lookup_history vt name = pre ++ h0 :: hs →
      (pre ++ h0 :: hs).length = (vpre ++ v0 :: vs).length →
      List.Forall₂
        (fun h v => values_match (last_value h) v = true) pre vpre →
      values_match (last_value h0) v0 = false →
      h0.length = max_unique_values →
      track_values vt name (vpre ++ v0 :: vs) =
        .error (.tooMany pre.length max_unique_values (h0 ++ [v0]))) := by
  constructor
  · intro vt name values values2 hfresh hne heq
    have h1 : track_values vt name values =
        .ok (set_history vt name (values.map (fun v => [v]))) := by
      simp [track_values, hfresh]
    refine ⟨h1, ?_, ?_⟩
    · have hlook : lookup_history
          (set_history vt name (values.map (fun v => [v]))) name =
          values.map (fun v => [v]) := lookup_set_history vt name _
      have hnonempty : (values.map (fun v => [v])).isEmpty = false := by
        cases values with
        | nil => exact absurd rfl hne
        | cons a l => simp
      have hlen : (values.map (fun v => [v])).length = values2.length := by
        rw [List.length_map]
        exact heq.length_eq
      have hforall : List.Forall₂
          (fun h v => values_match (last_value h) v = true)
          (values.map (fun v => [v])) values2 := by
        rw [List.forall₂_map_left_iff]
        exact heq.imp (fun {a b} hab => by simpa [last_value] using hab)
      have h2 := track_positions_matched
        (values.map (fun v => [v])) 0 values2 hforall
      simp [track_values, hlook, hnonempty, hlen, h2, except_map_ok]
    · intro l hl
      rw [lookup_set_history] at hl
      obtain ⟨v, _, rfl⟩ := List.mem_map.mp hl
      rfl
  · intro vt name pre hs vpre vs h0 v0 hlook hlen hf hm h0len
    have hne : (pre ++ h0 :: hs).isEmpty = false := by
      cases pre <;> simp
    have h2 := track_positions_overflow pre vpre 0 h0 v0 hs vs hf hm h0len
    simp only [Nat.zero_add] at h2
    simp [track_values, hlook, hne, hlen, h2, except_map_error]

/-- Closed instance of track_values_consistency: tracking a one-position
tuple twice leaves one entry, and a third distinct value at a position
already holding two distinct values fails listing all three. -/
theorem track_values_consistency_witness :
    (track_values [] "buf" [some 5] =
      .ok (set_history [] "buf" [[some 5]]) ∧
     track_values (set_history [] "buf" [[some 5]]) "buf" [some 5] =
      .ok (set_history (set_history [] "buf" [[some 5]]) "buf"
        [[some 5]]) ∧
     ∀ l ∈ lookup_history
        (set_history (set_history [] "buf" [[some 5]]) "buf" [[some 5]])
        "buf", l.length = 1) ∧
    track_values [("buf", [[some 5, some 6]])] "buf" [some 7] =
      .error (.tooMany 0 max_unique_values [some 5, some 6, some 7]) := by
  constructor
  · exact track_values_consistency.1 [] "buf" [some 5] [some 5]
      rfl (by simp) (by simp [values_match, can_prove_eq])
  · exact track_values_consistency.2 [("buf", [[some 5, some 6]])] "buf"
      [] [] [] [] [some 5, some 6] (some 7) rfl rfl List.Forall₂.nil
      rfl rfl

/-! ## C10: undefined values in the tracker -/

/-- C10: in track_values, a position whose last recorded value and new
value are both undefined is treated as equal (no new history entry); a
position where exactly one of the two is undefined is appended as a new
distinct value, counting toward the distinct-value threshold. -/
theorem track_values_undefined :
    (∀ (vt : ValueTracker) (name : String) (h : List Expr),
      lookup_history vt name = [h] →
      last_value h = none →
      track_values vt name [none] = .ok (set_history vt name [h])) ∧
    (∀ (vt : ValueTracker) (name : String) (h : List Expr) (a : Int),
      lookup_history vt name = [h] →
      last_value h = some a →
      h.length < max_unique_values →
      track_values vt name [none] =
        .ok (set_history vt name [h ++ [none]])) ∧
    (∀ (vt : ValueTracker) (name : String) (h : List Expr) (v : Int),
      lookup_history vt name = [h] →
      last_value h = none →
      h ≠ [] →
      h.length < max_unique_values →
      track_values vt name [some v] =
        .ok (set_history vt name [h ++ [some v]])) ∧
    (∀ (vt : ValueTracker) (name : String) (h : List Expr) (a : Int),
      lookup_history vt name = [h] →
      last_value h = some a →
      h.length = max_unique_values →
      track_values vt name [none] =
        .error (.tooMany 0 max_unique_values (h ++ [none]))) := by
  refine ⟨?_, ?_, ?_, ?_⟩
  · intro vt name h hlook hlast
    simp [track_values, hlook, track_positions, hlast, values_match,
      except_map_ok]
  · intro vt name h a hlook hlast hlen
    have hsz : ¬ (max_unique_values < h.length + 1) := by omega
    simp [track_values, hlook, track_positions, hlast, values_match, hsz,
      except_map_ok]
  · intro vt name h v hlook hlast _hne hlen
    have hsz : ¬ (max_unique_values < h.length + 1) := by omega
    simp [track_values, hlook, track_positions, hlast, values_match, hsz,
      except_map_ok]
  · intro vt name h a hlook hlast hlen
    have hsz : max_unique_values < h.length + 1 := by omega
    simp [track_values, hlook, track_positions, hlast, values_match, hsz,
      except_map_error]

/-- Closed instance of track_values_undefined at concrete histories. -/
theorem track_values_undefined_witness :
    track_values [("p", [[none]])] "p" [none] =
      .ok (set_history [("p", [[none]])] "p" [[none]]) ∧
    track_values [("p", [[some 3]])] "p" [none] =
      .ok (set_history [("p", [[some 3]])] "p" [[some 3, none]]) ∧
    track_values [("p", [[none]])] "p" [some 4] =
      .ok (set_history [("p", [[none]])] "p" [[none, some 4]]) ∧
    track_values [("p", [[some 3, some 5]])] "p" [none] =
      .error (.tooMany 0 max_unique_values [some 3, some 5, none]) := by
  refine ⟨?_, ?_, ?_, ?_⟩
  · exact track_values_undefined.1 [("p", [[none]])] "p" [none] rfl rfl
  · exact track_values_undefined.2.1 [("p", [[some 3]])] "p" [some 3] 3
      rfl rfl (by simp [max_unique_values])
  · exact track_values_undefined.2.2.1 [("p", [[none]])] "p" [none] 4
      rfl rfl (by simp) (by simp [max_unique_values])
  · exact track_values_undefined.2.2.2 [("p", [[some 3, some 5]])] "p"
      [some 3, some 5] 5 rfl rfl rfl

/-! ## Field entity lemmas -/

theorem find_type_mismatch_none (name : String) :
    ∀ (es ss : List HType), es.length = ss.length →
      (find_type_mismatch name es ss = none ↔ es = ss) := by
  intro es
  induction es with
  | nil =>
    intro ss h
    cases ss with
    | nil => simp [find_type_mismatch]
    | cons s2 ss => simp at h
  | cons e es ih =>
    intro ss h
    cases ss with
    | nil => simp at h
    | cons s2 ss =>
      simp only [find_type_mismatch]
      by_cases he : e = s2
      · subst he
        simp [ih ss (by simpa using h)]
      · simp [he]

theorem find_type_mismatch_first (name : String) :
    ∀ (es ss : List HType), es.length = ss.length → es ≠ ss →
      ∃ a b i, a ≠ b ∧
        find_type_mismatch name es ss = some (.typeMismatch name a b) ∧
        es.get? i = some a ∧ ss.get? i = some b := by
  intro es
  induction es with
  | nil =>
    intro ss h hne
    cases ss with
    | nil => exact absurd rfl hne
    | cons s2 ss => simp at h
  | cons e es ih =>
    intro ss h hne
    cases ss with
    | nil => simp at h
    | cons s2 ss =>
      by_cases he : e = s2
      · subst he
        have hne2 : es ≠ ss := by
          intro hh
          exact hne (by rw [hh])
        obtain ⟨a, b, i, hab, hf, ha, hb⟩ :=
          ih ss (by simpa using h) hne2
        refine ⟨a, b, i + 1, hab, ?_, ?_, ?_⟩
        · simpa [find_type_mismatch] using hf
        · simpa using ha
        · simpa using hb
      · exact ⟨e, s2, 0, he, by simp [find_type_mismatch, he], rfl, rfl⟩

/-! ## C3: type and dimensionality inference on field entities -/

/-- C3: a field entity whose element types or dimensionality are unset
adopts them from exactly one defined bound value and they become fixed;
once fixed, a matching observation leaves the entity unchanged, and a
differing observation fails with an error naming both the expected and
the observed value. -/
theorem gio_inference_first_write_wins :
    (∀ (s : GIOBase) (f : FuncVal),
      s.types_ = [] → s.funcs_ = [f] → f.is_defined = true →
      f.output_types ≠ [] →
      s.types = .ok ({ s with types_ := f.output_types },
        f.output_types) ∧
      GIOBase.types_defined { s with types_ := f.output_types }
        = true) ∧
    (∀ (s : GIOBase) (f : FuncVal),
      s.dims_ = -1 → s.funcs_ = [f] → f.is_defined = true →
      s.array_size_ = 1 → s.exprs_ = [] →
      s.dims = .ok ({ s with dims_ := (f.dimensions : Int) },
        (f.dimensions : Int)) ∧
      GIOBase.dims_defined { s with dims_ := (f.dimensions : Int) }
        = true) ∧
    (∀ (s s2 : GIOBase) (t : List HType),
      s.types_defined = true →
      s.check_matching_types t = .ok s2 → s2 = s ∧ t = s.types_) ∧
    (∀ (s : GIOBase) (t : List HType),
      s.types_defined = true → s.types_.length ≠ t.length →
      s.check_matching_types t =
        .error (.typeCountMismatch s.name_ s.types_.length t.length)) ∧
    (∀ (s : GIOBase) (t : List HType),
      s.types_defined = true → s.types_.length = t.length →
      t ≠ s.types_ →
      ∃ a b i, a ≠ b ∧
        s.check_matching_types t = .error (.typeMismatch s.name_ a b) ∧
        s.types_.get? i = some a ∧ t.get? i = some b) ∧
    (∀ (s s2 : GIOBase) (d : Nat),
      s.dims_defined = true →
      (s.check_matching_dims d = .ok s2 →
        s2 = s ∧ s.dims_ = (d : Int)) ∧
      (s.dims_ ≠ (d : Int) →
        s.check_matching_dims d =
          .error (.dimsMismatch s.name_ s.dims_ (d : Int)))) := by
  refine ⟨?_, ?_, ?_, ?_, ?_, ?_⟩
  · intro s f htypes hfuncs hdef hne
    have hdefd : s.types_defined = false := by
      simp [GIOBase.types_defined, htypes]
    have hdefd2 : GIOBase.types_defined
        { s with types_ := f.output_types } = true := by
      simp only [GIOBase.types_defined, Bool.not_eq_true']
      cases hout : f.output_types with
      | nil => exact absurd hout hne
      | cons a l => simp
    refine ⟨?_, hdefd2⟩
    have hout : f.output_types.isEmpty = false := by
      cases hout2 : f.output_types with
      | nil => exact absurd hout2 hne
      | cons a l => simp
    simp [GIOBase.types, hdefd, htypes, hne, hfuncs, hdef,
      GIOBase.check_matching_types, GIOBase.types_defined, hout]
  · intro s f hdims hfuncs hdef hsize hexprs
    have hdefd : s.dims_defined = false := by
      simp [GIOBase.dims_defined, hdims]
    have hd : ((f.dimensions : Int) = -1) = False := by
      simp only [eq_iff_iff, iff_false]
      omega
    have hdefd2 : GIOBase.dims_defined
        { s with dims_ := (f.dimensions : Int) } = true := by
      simp [GIOBase.dims_defined, hd]
    refine ⟨?_, hdefd2⟩
    have hfs : s.funcs = .ok [f] := by
      simp [GIOBase.funcs, GIOBase.array_size, GIOBase.array_size_defined,
        hsize, hfuncs, hexprs]
    simp [GIOBase.dims, hdefd, hdims, hfuncs, hdef, hfs,
      GIOBase.check_matching_dims, GIOBase.dims_defined, hd]
  · intro s s2 t hdefd hok
    simp only [GIOBase.check_matching_types, hdefd, if_true] at hok
    by_cases hlen : s.types_.length = t.length
    · simp only [hlen, ne_eq, not_true_eq_false, Bool.false_eq_true,
        if_false] at hok
      cases hfind : find_type_mismatch s.name_ s.types_ t with
      | some e => simp [hfind] at hok
      | none =>
        simp only [hfind] at hok
        have := (find_type_mismatch_none s.name_ s.types_ t hlen).mp hfind
        exact ⟨by injection hok with h2; exact h2.symm, this.symm⟩
    · simp [hlen] at hok
  · intro s t hdefd hlen
    simp [GIOBase.check_matching_types, hdefd, hlen]
  · intro s t hdefd hlen hne
    obtain ⟨a, b, i, hab, hf, ha, hb⟩ :=
      find_type_mismatch_first s.name_ s.types_ t hlen
        (fun hh => hne hh.symm)
    refine ⟨a, b, i, hab, ?_, ha, hb⟩
    simp [GIOBase.check_matching_types, hdefd, hlen, hf]
  · intro s s2 d hdefd
    constructor
    · intro hok
      simp only [GIOBase.check_matching_dims, hdefd, if_true] at hok
      by_cases hd : s.dims_ = (d : Int)
      · simp only [hd, if_true] at hok
        exact ⟨by injection hok with h2; exact h2.symm, hd⟩
      · simp [hd] at hok
    · intro hd
      simp [GIOBase.check_matching_dims, hdefd, hd]

/-- Closed instance of gio_inference_first_write_wins: an output entity
with unset types and dims bound to one defined value adopts them; a
subsequently observed differing type fails naming both types. -/
theorem gio_inference_first_write_wins_witness :
    (GIOBase.types ⟨1, "output", .Function, [], -1,
        [⟨true, [⟨0, 32, 1⟩], 2⟩], []⟩ =
      .ok (⟨1, "output", .Function, [⟨0, 32, 1⟩], -1,
        [⟨true, [⟨0, 32, 1⟩], 2⟩], []⟩, [⟨0, 32, 1⟩])) ∧
    (GIOBase.dims ⟨1, "output", .Function, [], -1,
        [⟨true, [⟨0, 32, 1⟩], 2⟩], []⟩ =
      .ok (⟨1, "output", .Function, [], 2,
        [⟨true, [⟨0, 32, 1⟩], 2⟩], []⟩, 2)) ∧
    (∃ a b i, a ≠ b ∧
      GIOBase.check_matching_types ⟨1, "output", .Function, [⟨0, 32, 1⟩],
        2, [⟨true, [⟨0, 32, 1⟩], 2⟩], []⟩ [⟨0, 16, 1⟩] =
        .error (.typeMismatch "output" a b) ∧
      List.get? [⟨0, 32, 1⟩] i = some a ∧
      List.get? [⟨0, 16, 1⟩] i = some b) ∧
    (GIOBase.check_matching_dims ⟨1, "output", .Function, [⟨0, 32, 1⟩],
        2, [⟨true, [⟨0, 32, 1⟩], 2⟩], []⟩ 3 =
      .error (.dimsMismatch "output" 2 3)) := by
  refine ⟨?_, ?_, ?_, ?_⟩
  · exact (gio_inference_first_write_wins.1
      ⟨1, "output", .Function, [], -1, [⟨true, [⟨0, 32, 1⟩], 2⟩], []⟩
      ⟨true, [⟨0, 32, 1⟩], 2⟩ rfl rfl rfl (by simp)).1
  · exact (gio_inference_first_write_wins.2.1
      ⟨1, "output", .Function, [], -1, [⟨true, [⟨0, 32, 1⟩], 2⟩], []⟩
      ⟨true, [⟨0, 32, 1⟩], 2⟩ rfl rfl rfl rfl rfl).1
  · exact gio_inference_first_write_wins.2.2.2.2.1
      ⟨1, "output", .Function, [⟨0, 32, 1⟩], 2,
        [⟨true, [⟨0, 32, 1⟩], 2⟩], []⟩ [⟨0, 16, 1⟩]
      rfl rfl (by decide)
  · exact (gio_inference_first_write_wins.2.2.2.2.2
      ⟨1, "output", .Function, [⟨0, 32, 1⟩], 2,
        [⟨true, [⟨0, 32, 1⟩], 2⟩], []⟩
      ⟨1, "output", .Function, [⟨0, 32, 1⟩], 2,
        [⟨true, [⟨0, 32, 1⟩], 2⟩], []⟩ 3 rfl).2 (by decide)

/-! ## Registry lemmas -/

theorem registry_lookup_insert (reg : RegistryMap) (name : String)
    (f : GeneratorFactory) (h : registry_lookup reg name = none) :
    registry_lookup (registry_insert reg name f) name = some f := by
  induction reg with
  | nil => simp [registry_insert, registry_lookup]
  | cons p rest ih =>
    have hp : (p.1 == name) = false := by
      by_contra hc
      have hc2 : (p.1 == name) = true := by simpa using hc
      simp [registry_lookup, List.find?, hc2] at h
    have hrest : registry_lookup rest name = none := by
      simpa [registry_lookup, List.find?, hp] using h
    obtain ⟨k, g⟩ := p
    simp only [registry_insert]
    by_cases hlt : name < k
    · simp [hlt, registry_lookup, List.find?]
    · simp only [hlt, if_false]
      simpa [registry_lookup, List.find?, hp] using ih hrest

/-! ## C4: create by name -/

/-- C4: creating an unregistered name fails with an error that carries
every currently registered name; creating a registered name invokes the
factory and returns its non-null instance (a null factory result trips
the internal assertion instead of being returned). -/
theorem registry_create_spec :
    (∀ (reg : RegistryMap) (name : String) (ctx : GContext),
      registry_lookup reg name = none →
      GeneratorRegistry.create reg name ctx =
        .error (.notFound name (registry_names reg))) ∧
    (∀ (reg : RegistryMap) (k : String) (f : GeneratorFactory),
      (k, f) ∈ reg → k ∈ registry_names reg) ∧
    (∀ (reg : RegistryMap) (name : String) (ctx : GContext)
      (f : GeneratorFactory) (g : Nat),
      registry_lookup reg name = some f → f ctx = some g →
      GeneratorRegistry.create reg name ctx = .ok g) ∧
    (∀ (reg : RegistryMap) (name : String) (ctx : GContext)
      (f : GeneratorFactory),
      registry_lookup reg name = some f → f ctx = none →
      GeneratorRegistry.create reg name ctx =
        .error .nullFactoryResult) := by
  refine ⟨?_, ?_, ?_, ?_⟩
  · intro reg name ctx h
    simp [GeneratorRegistry.create, h]
  · intro reg k f h
    exact List.mem_map.mpr ⟨(k, f), h, rfl⟩
  · intro reg name ctx f g h hf
    simp [GeneratorRegistry.create, h, hf]
  · intro reg name ctx f h hf
    simp [GeneratorRegistry.create, h, hf]

/-- Closed instance of registry_create_spec on a one-entry registry. -/
theorem registry_create_spec_witness :
    GeneratorRegistry.create [("foo", fun _ => some 7)] "bar" ⟨0⟩ =
      .error (.notFound "bar" ["foo"]) ∧
    GeneratorRegistry.create [("foo", fun _ => some 7)] "foo" ⟨0⟩ =
      .ok 7 := by
  constructor
  · exact registry_create_spec.1 [("foo", fun _ => some 7)] "bar" ⟨0⟩ rfl
  · exact registry_create_spec.2.2.1 [("foo", fun _ => some 7)] "foo"
      ⟨0⟩ (fun _ => some 7) 7 rfl rfl

/-! ## C5: registration -/

/-- C5 counterexample: registering a duplicate name fails through the
internal-contract tier (internal_assert in the source), not through the
user-facing validation tier the claim asserts. -/
theorem register_duplicate_tier_cex :
    register_factory [("foo", fun _ => some 1)] "foo" (fun _ => some 2) =
      .error (.duplicateName "foo") ∧
    RegisterErr.tier (.duplicateName "foo") = .internalContract ∧
    ErrTier.internalContract ≠ ErrTier.userFacing := by
  refine ⟨rfl, rfl, by decide⟩

/-- C5 amended: register fails on an invalid identifier with a
user-facing validation error; it fails on a duplicate name, but through
an internal-contract assertion rather than a user-facing validation
error; a valid fresh name is inserted and found afterwards. -/
theorem register_factory_spec :
    (∀ (reg : RegistryMap) (name : String) (f : GeneratorFactory),
      is_valid_name name = false →
      register_factory reg name f = .error (.invalidName name) ∧
      RegisterErr.tier (.invalidName name) = .userFacing) ∧
    (∀ (reg : RegistryMap) (name : String) (f : GeneratorFactory),
      is_valid_name name = true →
      (registry_lookup reg name).isSome = true →
      register_factory reg name f = .error (.duplicateName name) ∧
      RegisterErr.tier (.duplicateName name) = .internalContract) ∧
    (∀ (reg : RegistryMap) (name : String) (f : GeneratorFactory),
      is_valid_name name = true →
      registry_lookup reg name = none →
      register_factory reg name f = .ok (registry_insert reg name f) ∧
      registry_lookup (registry_insert reg name f) name = some f) := by
  refine ⟨?_, ?_, ?_⟩
  · intro reg name f h
    exact ⟨by simp [register_factory, h], rfl⟩
  · intro reg name f h hs
    exact ⟨by simp [register_factory, h, hs], rfl⟩
  · intro reg name f h hn
    refine ⟨by simp [register_factory, h, hn], ?_⟩
    exact registry_lookup_insert reg name f hn

/-- Closed instance of register_factory_spec: an invalid identifier is
rejected with a user-facing error, and a fresh valid name is inserted. -/
theorem register_factory_spec_witness :
    (register_factory [] "_x" (fun _ => some 1) =
      .error (.invalidName "_x") ∧
     RegisterErr.tier (.invalidName "_x") = .userFacing) ∧
    (register_factory [] "foo" (fun _ => some 1) =
      .ok (registry_insert [] "foo" (fun _ => some 1)) ∧
     registry_lookup (registry_insert [] "foo" (fun _ => some 1)) "foo" =
      some (fun _ => some 1)) := by
  constructor
  · exact register_factory_spec.1 [] "_x" (fun _ => some 1) rfl
  · exact register_factory_spec.2.2 [] "foo" (fun _ => some 1) rfl rfl

/-! ## Schema builder lemmas -/

theorem except_bind_ok {ε α β : Type} (x : α) (f : α → Except ε β) :
    ((Except.ok x : Except ε α) >>= f) = f x := rfl

theorem except_bind_error {ε α β : Type} (e : ε) (f : α → Except ε β) :
    ((Except.error e : Except ε α) >>= f) = .error e := rfl

/-! ## C8: mutually exclusive declaration styles -/

/-- C8 counterexample: a legacy-style param together with a modern-style
input makes schema building fail, but through the user-facing validation
tier (user_error in the source) rather than the internal-contract tier a
fatal-to-the-caller configuration error would use. -/
theorem mixed_styles_tier_cex :
    build_param_info [⟨"p", true⟩] [⟨"in1", .Function, false⟩] [] [] =
      .error .inputWithFilterParams ∧
    SchemaErr.tier .inputWithFilterParams = .userFacing ∧
    ErrTier.userFacing ≠ ErrTier.internalContract := by
  refine ⟨rfl, rfl, by decide⟩

/-- C8 amended: discovered members containing a legacy-style param
together with a modern-style input, or with a modern-style output, make
schema building fail with a user-facing validation error; no successfully
built schema contains both declaration styles. -/
theorem mixed_styles_rejected :
    (∀ (p i : String), is_valid_name p = true → is_valid_name i = true →
      (i == p) = false →
      build_param_info [⟨p, true⟩] [⟨i, .Function, false⟩] [] [] =
        .error .inputWithFilterParams ∧
      SchemaErr.tier .inputWithFilterParams = .userFacing) ∧
    (∀ (p o : String), is_valid_name p = true → is_valid_name o = true →
      (o == p) = false →
      build_param_info [⟨p, true⟩] [] [⟨o, .Function, false⟩] [] =
        .error .outputWithFilterParams ∧
      SchemaErr.tier .outputWithFilterParams = .userFacing) ∧
    (∀ (fps : List FilterParamDecl) (ins outs : List GIODecl)
      (gps : List ParamDecl) (pi : ParamInfo),
      build_param_info fps ins outs gps = .ok pi →
      pi.filter_params = [] ∨
        (pi.filter_inputs = [] ∧ pi.filter_outputs = [])) := by
  refine ⟨?_, ?_, ?_⟩
  · intro p i hp hi hne
    refine ⟨?_, rfl⟩
    have hne2 : ¬ (i = p) := by simpa using hne
    simp [build_param_info, process_filter_params, process_gios, hp, hi,
      hne2, except_bind_ok, except_map_ok]
  · intro p o hp ho hne
    refine ⟨?_, rfl⟩
    have hne2 : ¬ (o = p) := by simpa using hne
    simp [build_param_info, process_filter_params, process_gios, hp, ho,
      hne2, except_bind_ok, except_map_ok]
  · intro fps ins outs gps pi h
    simp only [build_param_info] at h
    cases h1 : process_filter_params [] fps with
    | error e => rw [h1] at h; simp [except_bind_error] at h
    | ok r1 =>
      obtain ⟨names1, fp⟩ := r1
      rw [h1] at h
      simp only [except_bind_ok] at h
      cases h2 : process_gios .invalidInputName .duplicateInputName
          names1 ins with
      | error e => rw [h2] at h; simp [except_bind_error] at h
      | ok r2 =>
        obtain ⟨names2, fi, syn_in⟩ := r2
        rw [h2] at h
        simp only [except_bind_ok] at h
        cases h3 : process_gios .invalidOutputName .duplicateOutputName
            names2 outs with
        | error e => rw [h3] at h; simp [except_bind_error] at h
        | ok r3 =>
          obtain ⟨names3, fo, syn_out⟩ := r3
          rw [h3] at h
          simp only [except_bind_ok] at h
          by_cases hc1 : fp.length > 0 ∧ fi.length > 0
          · rw [if_pos hc1] at h
            simp at h
          · rw [if_neg hc1] at h
            by_cases hc2 : fp.length > 0 ∧ fo.length > 0
            · rw [if_pos hc2] at h
              simp at h
            · rw [if_neg hc2] at h
              cases h4 : process_generator_params names3 gps with
              | error e => rw [h4] at h; simp [except_bind_error] at h
              | ok r4 =>
                obtain ⟨names4, gp4⟩ := r4
                rw [h4] at h
                simp only [except_bind_ok] at h
                have hrec : ParamInfo.mk fp fi fo
                    (syn_in ++ syn_out ++ gp4) = pi := by
                  injection h
                by_cases hfp : fp = []
                · left
                  rw [← hrec, hfp]
                · right
                  have hlen : fp.length > 0 :=
                    List.length_pos.mpr hfp
                  have hfi : fi = [] := by
                    have := fun hh => hc1 ⟨hlen, hh⟩
                    have hz : fi.length = 0 := by omega
                    exact List.eq_nil_of_length_eq_zero hz
                  have hfo : fo = [] := by
                    have := fun hh => hc2 ⟨hlen, hh⟩
                    have hz : fo.length = 0 := by omega
                    exact List.eq_nil_of_length_eq_zero hz
                  rw [← hrec, hfi, hfo]
                  exact ⟨rfl, rfl⟩

/-- Closed instance of mixed_styles_rejected at concrete member sets. -/
theorem mixed_styles_rejected_witness :
    (build_param_info [⟨"p", true⟩] [] [⟨"out1", .Function, false⟩] [] =
      .error .outputWithFilterParams ∧
     SchemaErr.tier .outputWithFilterParams = .userFacing) ∧
    (ParamInfo.filter_params
        ⟨[], [⟨"in1", .Function, false⟩], [], ["in1.type", "in1.dim"]⟩
        = [] ∨
      (ParamInfo.filter_inputs
          ⟨[], [⟨"in1", .Function, false⟩], [], ["in1.type", "in1.dim"]⟩
          = [] ∧
       ParamInfo.filter_outputs
          ⟨[], [⟨"in1", .Function, false⟩], [], ["in1.type", "in1.dim"]⟩
          = [])) := by
  constructor
  · exact mixed_styles_rejected.2.1 "p" "out1" rfl rfl rfl
  · exact mixed_styles_rejected.2.2 [] [⟨"in1", .Function, false⟩] [] []
      ⟨[], [⟨"in1", .Function, false⟩], [], ["in1.type", "in1.dim"]⟩ rfl

/-! ## C6: schema emission -/

/-- C6 counterexample: on a fresh instance with a plain stub name the
first wrapper emission succeeds, but emitting a second time fails the
phase-advance internal assertion instead of producing output again;
likewise for the metadata emission.  A stub name with a leading
double-colon additionally makes even the first emission abort in the
emitter constructor. -/
theorem emit_twice_second_fails_cex :
    emit_cpp_stub ⟨.Created, "foo", "foo",
        ⟨[], [], [⟨"output", .Function, false⟩], []⟩⟩ =
      .ok (⟨.ScheduleCalled, "foo", "foo",
          ⟨[], [], [⟨"output", .Function, false⟩], []⟩⟩,
        stub_text "foo" ["foo"]
          ⟨[], [], [⟨"output", .Function, false⟩], []⟩) ∧
    emit_cpp_stub ⟨.ScheduleCalled, "foo", "foo",
        ⟨[], [], [⟨"output", .Function, false⟩], []⟩⟩ =
      .error (.phase (.badTransition .ScheduleCalled .GenerateCalled)) ∧
    emit_yaml ⟨.Created, "foo", "foo",
        ⟨[], [], [⟨"output", .Function, false⟩], []⟩⟩ =
      .ok (⟨.ScheduleCalled, "foo", "foo",
          ⟨[], [], [⟨"output", .Function, false⟩], []⟩⟩,
        yaml_text "foo" "foo" ["foo"]
          ⟨[], [], [⟨"output", .Function, false⟩], []⟩) ∧
    emit_yaml ⟨.ScheduleCalled, "foo", "foo",
        ⟨[], [], [⟨"output", .Function, false⟩], []⟩⟩ =
      .error (.phase (.badTransition .ScheduleCalled .GenerateCalled)) ∧
    emit_cpp_stub ⟨.Created, "foo", "::foo",
        ⟨[], [], [⟨"output", .Function, false⟩], []⟩⟩ =
      .error .namespaceAssert ∧
    emit_yaml ⟨.Created, "foo", "::foo",
        ⟨[], [], [⟨"output", .Function, false⟩], []⟩⟩ =
      .error .namespaceAssert :=
  ⟨rfl, rfl, rfl, rfl, rfl, rfl⟩

/-- C6 amended: on a fresh instance whose stub name decomposes into
valid namespaces, a first emission succeeds and advances the phase to
ScheduleCalled while a second emission fails the phase-advance internal
assertion; a fresh instance whose stub name trips the emitter
constructor assertion fails already on the first emission; and the
emitted text is a pure function of the names and the schema (identical
inputs give byte-equal output). -/
theorem emit_deterministic_single :
    (∀ (g : GenState) (nss : List String), g.phase = .Created →
      g.generator_registered_name.isEmpty = false →
      g.generator_stub_name.isEmpty = false →
      emitter_namespaces g.generator_stub_name = .ok nss →
      emit_cpp_stub g = .ok ({ g with phase := .ScheduleCalled },
        stub_text g.generator_registered_name nss g.param_info) ∧
      emit_cpp_stub { g with phase := .ScheduleCalled } =
        .error (.phase
          (.badTransition .ScheduleCalled .GenerateCalled)) ∧
      emit_yaml g = .ok ({ g with phase := .ScheduleCalled },
        yaml_text g.generator_registered_name g.generator_stub_name nss
          g.param_info) ∧
      emit_yaml { g with phase := .ScheduleCalled } =
        .error (.phase
          (.badTransition .ScheduleCalled .GenerateCalled))) ∧
    (∀ g : GenState, g.phase = .Created →
      g.generator_registered_name.isEmpty = false →
      g.generator_stub_name.isEmpty = false →
      emitter_namespaces g.generator_stub_name =
        .error .namespaceAssert →
      emit_cpp_stub g = .error .namespaceAssert ∧
      emit_yaml g = .error .namespaceAssert) ∧
    (∀ (r1 s1 r2 s2 : String) (n1 n2 : List String)
      (p1 p2 : ParamInfo),
      r1 = r2 → s1 = s2 → n1 = n2 → p1 = p2 →
      stub_text r1 n1 p1 = stub_text r2 n2 p2 ∧
      yaml_text r1 s1 n1 p1 = yaml_text r2 s2 n2 p2) := by
  refine ⟨?_, ?_, ?_⟩
  · intro g nss hp h1 h2 hn
    refine ⟨?_, ?_, ?_, ?_⟩
    · simp [emit_cpp_stub, h1, h2, hp, hn, advance_phase]
    · simp [emit_cpp_stub, h1, h2, advance_phase]
    · simp [emit_yaml, h1, h2, hp, hn, advance_phase]
    · simp [emit_yaml, h1, h2, advance_phase]
  · intro g hp h1 h2 hn
    constructor
    · simp [emit_cpp_stub, h1, h2, hp, hn, advance_phase]
    · simp [emit_yaml, h1, h2, hp, hn, advance_phase]
  · intro r1 s1 r2 s2 n1 n2 p1 p2 e1 e2 e3 e4
    rw [e1, e2, e3, e4]
    exact ⟨rfl, rfl⟩

/-- Closed instance of emit_deterministic_single on concrete fresh
instances: a plain stub name emits once then fails, a leading
double-colon stub name fails on the first emission. -/
theorem emit_deterministic_single_witness :
    (emit_cpp_stub ⟨.Created, "bar", "bar", ⟨[], [], [], []⟩⟩ =
      .ok (⟨.ScheduleCalled, "bar", "bar", ⟨[], [], [], []⟩⟩,
        stub_text "bar" ["bar"] ⟨[], [], [], []⟩) ∧
     emit_cpp_stub ⟨.ScheduleCalled, "bar", "bar", ⟨[], [], [], []⟩⟩ =
      .error (.phase (.badTransition .ScheduleCalled .GenerateCalled))) ∧
    emit_cpp_stub ⟨.Created, "bar", "::bar", ⟨[], [], [], []⟩⟩ =
      .error .namespaceAssert := by
  have h := emit_deterministic_single.1
    ⟨.Created, "bar", "bar", ⟨[], [], [], []⟩⟩ ["bar"] rfl rfl rfl rfl
  have h2 := emit_deterministic_single.2.1
    ⟨.Created, "bar", "::bar", ⟨[], [], [], []⟩⟩ rfl rfl rfl rfl
  exact ⟨⟨h.1, h.2.1⟩, h2.1⟩

end HalideGen
